import Mathlib

/-!
A verification development for the NFL-Live-Scores ingestion service.

The Python modules `app/services/fantasy.py`, `app/services/scores.py`,
`app/services/nflfastr.py`, `app/db/crud.py` and `app/main.py` are shallowly
embedded below.  Dynamic JSON-shaped payloads are modelled by the `PyVal`
inductive (Python dict keys coming from JSON are strings); Python floats are
modelled by exact rationals; Python functions that may raise are modelled as
`Option`-returning functions; a `wf…` predicate accompanies each traversal and
carves out the payload shapes on which the Python code runs without raising a
`TypeError`/`AttributeError`, so that the total Lean model and the Python code
agree.  Leading underscores of Python names are dropped where needed.
-/

/-- Model of a dynamically-typed Python/JSON value.  Python dict keys that the
embedded code manipulates come from decoded JSON, hence are strings.  Python
ints and floats are collapsed into exact rationals (`num`), which models
Python's numeric semantics exactly on the in-range integer and decimal data
these services consume. -/
inductive PyVal where
  | none
  | bool (b : Bool)
  | num (q : ℚ)
  | str (s : String)
  | list (xs : List PyVal)
  | dict (kvs : List (String × PyVal))

/-- A Python dict with string keys: an insertion-ordered association list. -/
abbrev PyDict := List (String × PyVal)

/-- Python truthiness (`bool(v)`). -/
def truthy : PyVal → Bool
  | .none => false
  | .bool b => b
  | .num q => decide (q ≠ 0)
  | .str s => decide (s ≠ "")
  | .list xs => !xs.isEmpty
  | .dict kvs => !kvs.isEmpty

/-- Python's `d.get(k)`: `None` when the key is absent. -/
def dget (d : PyDict) (k : String) : PyVal :=
  (List.lookup k d).getD PyVal.none

/-- View a value as a dict; non-dicts give the empty dict (call sites guard
with a `wf…` predicate wherever Python would instead raise). -/
def asDict : PyVal → PyDict
  | .dict kvs => kvs
  | _ => []

/-- Python's `(v or {})` followed by use as a dict. -/
def orDict (v : PyVal) : PyDict :=
  if truthy v then asDict v else []

/-- Python's `(v or [])` followed by iteration. -/
def orList (v : PyVal) : List PyVal :=
  if truthy v then (match v with | .list xs => xs | _ => []) else []

/-- Python's `(v or "")` for string-or-falsy values. -/
def orStr (v : PyVal) : String :=
  if truthy v then (match v with | .str s => s | _ => "") else ""

/-- Python's `a or b`. -/
def pyOr (a b : PyVal) : PyVal :=
  if truthy a then a else b

/-- Python's `v == s` against a string literal `s` (values of other types
never compare equal to a string). -/
def isStrV (v : PyVal) (s : String) : Bool :=
  match v with
  | .str t => t == s
  | _ => false

/-- Model of `str.upper()` (via the character list, so that proofs can
evaluate it). -/
def strUpper (s : String) : String :=
  String.mk (s.data.map Char.toUpper)

/-- Model of `str.strip()`. -/
def strTrim (s : String) : String :=
  String.mk (((s.data.dropWhile Char.isWhitespace).reverse.dropWhile Char.isWhitespace).reverse)

/-- Model of `s.replace(",", "")`: every comma is removed. -/
def stripCommas (s : String) : String :=
  String.mk (s.data.filter (fun c => !(c == ',')))

/-- Numeric value of a list of decimal digit characters. -/
def digitsVal (cs : List Char) : Nat :=
  cs.foldl (fun a c => a * 10 + (c.toNat - 48)) 0

/-- Model of Python's `int(s)` on a string: optional surrounding whitespace,
optional sign, then decimal digits only. -/
def pyIntOfStr (s : String) : Option Int :=
  let cs0 := (strTrim s).toList
  let sgn : Int := match cs0 with | '-' :: _ => -1 | _ => 1
  let cs := match cs0 with | '+' :: r => r | '-' :: r => r | r => r
  if cs ≠ [] && cs.all Char.isDigit then some (sgn * (digitsVal cs : Int)) else Option.none

/-- Sign application for parsed literals. -/
def msign (neg : Bool) (n : Int) : Int :=
  if neg then -n else n

/-- Exponent suffix of a float literal: optional sign then digits, scaling the
mantissa fraction `n / d` by the corresponding power of ten. -/
def parseExp (n : Int) (d : Nat) (cs : List Char) : Option ℚ :=
  let pos := match cs with | '-' :: _ => false | _ => true
  let ds := match cs with | '+' :: r => r | '-' :: r => r | r => r
  if ds ≠ [] && ds.all Char.isDigit then
    let e := digitsVal ds
    some (if pos then mkRat (n * ((10 ^ e : Nat) : Int)) d else mkRat n (d * 10 ^ e))
  else Option.none

/-- Model of Python's `float(s)` on a string: optional surrounding whitespace,
optional sign, digits with an optional fractional part and optional exponent;
the exact decimal value is returned.  (`inf`/`nan` and digit-group underscores
are outside the model; none of the embedded call sites depend on them.) -/
def parseFloat (s : String) : Option ℚ :=
  let cs0 := (strTrim s).toList
  let neg : Bool := match cs0 with | '-' :: _ => true | _ => false
  let cs := match cs0 with | '+' :: r => r | '-' :: r => r | r => r
  let ip := cs.takeWhile Char.isDigit
  let rest := cs.dropWhile Char.isDigit
  match rest with
  | [] => if ip ≠ [] then some (mkRat (msign neg (digitsVal ip)) 1) else Option.none
  | '.' :: r2 =>
    let fp := r2.takeWhile Char.isDigit
    let rest2 := r2.dropWhile Char.isDigit
    if ip = [] && fp = [] then Option.none
    else
      let n : Int := ((digitsVal ip * 10 ^ fp.length + digitsVal fp : Nat) : Int)
      let d : Nat := 10 ^ fp.length
      match rest2 with
      | [] => some (mkRat (msign neg n) d)
      | 'e' :: r3 => parseExp (msign neg n) d r3
      | 'E' :: r3 => parseExp (msign neg n) d r3
      | _ => Option.none
  | 'e' :: r3 =>
    if ip ≠ [] then parseExp (msign neg (digitsVal ip)) 1 r3 else Option.none
  | 'E' :: r3 =>
    if ip ≠ [] then parseExp (msign neg (digitsVal ip)) 1 r3 else Option.none
  | _ => Option.none

/-- Truncation toward zero, as Python's `int(float)`. -/
def truncRat (q : ℚ) : Int :=
  if 0 ≤ q.num then Int.ofNat (q.num.toNat / q.den) else -Int.ofNat ((-q.num).toNat / q.den)

/-- Model of Python's `int(v)`; `Option.none` models the call raising. -/
def pyInt : PyVal → Option Int
  | .num q => some (truncRat q)
  | .bool b => some (if b then 1 else 0)
  | .str s => pyIntOfStr s
  | _ => Option.none

/-- Model of Python's `float(v)`; `Option.none` models the call raising. -/
def pyFloat : PyVal → Option ℚ
  | .num q => some q
  | .bool b => some (if b then 1 else 0)
  | .str s => parseFloat s
  | _ => Option.none

/-- Model of Python's `str(v)` for the scalar values that reach it in the
embedded code.  Container values get a bracketed placeholder: Python's real
repr for them likewise never parses as a float, which is the only way those
reprs are consumed here. -/
def pyStr : PyVal → String
  | .none => "None"
  | .bool b => if b then "True" else "False"
  | .str s => s
  | .num q => if q.den = 1 then toString q.num else toString q.num ++ "/" ++ toString q.den
  | .list _ => "<list>"
  | .dict _ => "<dict>"

/-!  Embedding of `app/services/fantasy.py`. -/

/-- Python dict assignment `d[k] = v`: replaces the value at the first (unique)
occurrence of `k` in place, else appends, exactly as CPython dicts preserve
insertion order on update. -/
def dictSet {α : Type} : List (String × α) → String → α → List (String × α)
  | [], k, v => [(k, v)]
  | kv :: rest, k, v => if kv.1 = k then (k, v) :: rest else kv :: dictSet rest k v

/-- Python's `d.setdefault(k, v)`. -/
def dictSetdefault {α : Type} (d : List (String × α)) (k : String) (v : α) : List (String × α) :=
  if (d.map Prod.fst).contains k then d else d ++ [(k, v)]

/-- `coerce_num` from `_summary_players_iter`: `float(v)`, else
`float(str(v).replace(",", ""))`, else `0.0`. -/
def coerce_num (v : PyVal) : ℚ :=
  match pyFloat v with
  | some q => q
  | Option.none => (parseFloat (stripCommas (pyStr v))).getD 0

/-- `coerce_num` applied to a value that is already a Python float (as every
value stored in the intermediate `stats` dict is). -/
def coerceFloat (q : ℚ) : ℚ := coerce_num (PyVal.num q)

/-- The `ALIASES` table of `_summary_players_iter`. -/
def ALIASES : List (String × String) :=
  [("passingYds", "passingYards"),
   ("passingTDs", "passingTouchdowns"),
   ("ints", "interceptions"),
   ("rushingYds", "rushingYards"),
   ("rushingTDs", "rushingTouchdowns"),
   ("receivingYds", "receivingYards"),
   ("receivingTDs", "receivingTouchdowns"),
   ("rec", "receptions"),
   ("fumbles", "fumblesLost")]

/-- `ALIASES.get(k, k)`. -/
def aliasOf (k : String) : String := (List.lookup k ALIASES).getD k

/-- One step of the canonicalization loop of `_summary_players_iter`
(lines building `out` from `stats`): aliased fumble variants are skipped when
a true `fumblesLost` key is present. -/
def canonStep (hasTrue : Bool) (out : List (String × ℚ)) (kv : String × ℚ) : List (String × ℚ) :=
  let canon := aliasOf kv.1
  if canon == "fumblesLost" && hasTrue && kv.1 != "fumblesLost" then out
  else dictSet out canon (coerceFloat kv.2)

/-- The canonicalization loop of `_summary_players_iter`: fold the raw stat
dict into `out`, mapping aliased keys to canonical ones. -/
def canonicalizeStats (stats : List (String × ℚ)) : List (String × ℚ) :=
  stats.foldl (canonStep (stats.any (fun kv => kv.1 == "fumblesLost"))) []

/-- The raw `stats` dict built for one athlete row: `totals` (dict), then
`stats` (dict or list of `{name, abbreviation, value}` cells). -/
def buildRawStats (row : PyDict) : List (String × ℚ) :=
  let s1 : List (String × ℚ) :=
    match dget row "totals" with
    | .dict kvs => kvs.foldl (fun acc kv => dictSet acc kv.1 (coerce_num kv.2)) []
    | _ => []
  match dget row "stats" with
  | .dict kvs => kvs.foldl (fun acc kv => dictSet acc kv.1 (coerce_num kv.2)) s1
  | .list scs =>
    scs.foldl (fun acc scv =>
      match scv with
      | .dict sc =>
        let acc1 :=
          match List.lookup "name" sc with
          | some (.str nk) => dictSet acc nk (coerce_num (dget sc "value"))
          | some _ => acc
          | Option.none => acc
        match List.lookup "abbreviation" sc with
        | some ab =>
          let val := coerce_num (dget sc "value")
          if isStrV ab "INT" then dictSetdefault acc1 "interceptions" val
          else if isStrV ab "REC" then dictSetdefault acc1 "receptions" val
          else acc1
        | Option.none => acc1
      | _ => acc) s1
  | _ => s1

/-- One canonical player tuple `(team_abbr, position, athlete, stat_map)`. -/
abbrev PTuple := String × String × PyDict × List (String × ℚ)

/-- The `groups` list of `_summary_players_iter`: `players` then `statistics`
sub-shapes, each included only when it is a list. -/
def summaryGroups (t : PyDict) : List PyVal :=
  (match dget t "players" with | .list xs => xs | _ => []) ++
  (match dget t "statistics" with | .list xs => xs | _ => [])

/-- `_summary_players_iter`: tier-1 extraction of player tuples from the
summary JSON, supporting both known sub-shapes uniformly. -/
def summary_players_iter (summary : PyDict) : List PTuple :=
  let box := orDict (dget summary "boxscore")
  (orList (dget box "teams")).flatMap (fun tv =>
    let t := asDict tv
    let team_abbr := strTrim (strUpper (orStr (dget (orDict (dget t "team")) "abbreviation")))
    if team_abbr = "" then []
    else
      (summaryGroups t).flatMap (fun gv =>
        let grp := asDict gv
        let pos :=
          match dget grp "position" with
          | .dict po => strUpper (orStr (pyOr (dget po "abbreviation") (dget po "displayName")))
          | _ => ""
        (orList (dget grp "athletes")).flatMap (fun rv =>
          let row := asDict rv
          let athlete := orDict (dget row "athlete")
          if athlete.isEmpty then []
          else
            let out := canonicalizeStats (buildRawStats row)
            let a_pos := orStr (dget (orDict (dget athlete "position")) "abbreviation")
            let use_pos := strUpper (if a_pos ≠ "" then a_pos else if pos ≠ "" then pos else "")
            [(team_abbr, use_pos, athlete, out)])))

/-- `_extract_event_id_from_summary`. -/
def extract_event_id (summary : PyDict) : Option String :=
  let h := orDict (dget summary "header")
  match List.lookup "id" h with
  | some idv => some (pyStr idv)
  | Option.none =>
    match dget h "competitions" with
    | .list (c :: _) =>
      match c with
      | .dict cd =>
        let cid := dget cd "id"
        if truthy cid then some (pyStr cid) else Option.none
      | _ => Option.none
    | _ => Option.none

/-- The `_get` path helper of `_fitt_gamepackage_json`. -/
def getPath : PyVal → List String → PyVal
  | v, [] => v
  | v, p :: ps =>
    match v with
    | .dict kvs => getPath (dget kvs p) ps
    | _ => PyVal.none

/-- `_fitt_gamepackage_json`: probe the known nesting paths in order and
return the first truthy hit if it is a dict. -/
def fitt_gamepackage_json (root : PyVal) : Option PyDict :=
  match root with
  | .dict _ =>
    let g1 := getPath root ["page", "content", "gamepackage", "gamepackageJSON"]
    let g2 := getPath root ["page", "content", "gamepackageJSON"]
    let g3 := getPath root ["content", "gamepackage", "gamepackageJSON"]
    let g4 := getPath root ["content", "gamepackageJSON"]
    match pyOr g1 (pyOr g2 (pyOr g3 g4)) with
    | .dict kvs => some kvs
    | _ => Option.none
  | _ => Option.none

/-- The network-reaching collaborators of `_iter_players`: `_fetch_boxscore_fitt`
(tier 2, `Option.none` modelling a fetch/parse failure) and `_core_players_iter`
(tier 3), supplied as oracles so that invocations can be counted. -/
structure FetchEnv where
  fetchFitt : String → Option PyVal
  corePlayers : String → List PTuple

/-- `_iter_players`: three-tier resolution.  Besides the yielded tuples the
model returns how many times the tier-2 HTML fetch and the tier-3 core-graph
walk were invoked. -/
def iter_players (env : FetchEnv) (summary : PyDict) : List PTuple × Nat × Nat :=
  let t1 := summary_players_iter summary
  if !t1.isEmpty then (t1, 0, 0)
  else
    match extract_event_id summary with
    | some eid =>
      if eid ≠ "" then
        let fitt := env.fetchFitt eid
        let gpj := match fitt with | some f => fitt_gamepackage_json f | Option.none => Option.none
        match gpj with
        | some g =>
          let t2 := summary_players_iter g
          if !t2.isEmpty then (t2, 1, 0) else (env.corePlayers eid, 1, 1)
        | Option.none => (env.corePlayers eid, 1, 1)
      else ([], 0, 0)
    | Option.none => ([], 0, 0)

/-!  Well-formedness of summary payloads: the shapes on which the Python
traversal in `_summary_players_iter` runs without raising. -/

/-- The value is a string or falsy (so `(v or "")...upper()` cannot raise). -/
def wfStrF (v : PyVal) : Bool :=
  match v with | .str _ => true | _ => !truthy v

/-- The value is a dict or falsy (so `(v or {}).get` cannot raise). -/
def wfDictF (v : PyVal) : Bool :=
  match v with | .dict _ => true | _ => !truthy v

/-- The value is a list or falsy (so `for x in (v or [])` cannot raise). -/
def wfListF (v : PyVal) : Bool :=
  match v with | .list _ => true | _ => !truthy v

/-- A stat cell in the list-shaped `stats`: its `name`, when present, must be a
string (it is used as a dict key). -/
def wfStatCell (scv : PyVal) : Bool :=
  match scv with
  | .dict sc =>
    match List.lookup "name" sc with
    | some (.str _) => true
    | some _ => false
    | Option.none => true
  | _ => true

/-- An athlete row of a statistic group. -/
def wfAthleteRow (rv : PyVal) : Bool :=
  match rv with
  | .dict row =>
    wfDictF (dget row "athlete") &&
    (let ath := orDict (dget row "athlete")
     wfDictF (dget ath "position") &&
     wfStrF (dget (orDict (dget ath "position")) "abbreviation")) &&
    (match dget row "stats" with | .list scs => scs.all wfStatCell | _ => true)
  | _ => false

/-- A statistic group of a team. -/
def wfGroup (gv : PyVal) : Bool :=
  match gv with
  | .dict grp =>
    (match dget grp "position" with
     | .dict po => wfStrF (dget po "abbreviation") && wfStrF (dget po "displayName")
     | _ => true) &&
    wfListF (dget grp "athletes") &&
    (orList (dget grp "athletes")).all wfAthleteRow
  | _ => false

/-- A team entry of the boxscore. -/
def wfTeam (tv : PyVal) : Bool :=
  match tv with
  | .dict t =>
    wfDictF (dget t "team") &&
    wfStrF (dget (orDict (dget t "team")) "abbreviation") &&
    (summaryGroups t).all wfGroup
  | _ => false

/-- Well-formed summary payload for tier-1 extraction. -/
def wfSummary (s : PyDict) : Bool :=
  wfDictF (dget s "boxscore") &&
  wfListF (dget (orDict (dget s "boxscore")) "teams") &&
  (orList (dget (orDict (dget s "boxscore")) "teams")).all wfTeam

/-!  Scoring engine (`_points` and the seeded "Full PPR" rule). -/

/-- The `ScoringRule` row of `app/models.py`: one linear weight per raw stat
category (numeric columns modelled as exact rationals). -/
structure ScoringRule where
  pass_yd : ℚ
  pass_td : ℚ
  pass_int : ℚ
  rush_yd : ℚ
  rush_td : ℚ
  rec_yd : ℚ
  rec_td : ℚ
  reception : ℚ
  fumble_lost : ℚ
deriving DecidableEq, Repr

/-- The "Full PPR" rule seeded by `scripts/seed_basic.py`. -/
def fullPPR : ScoringRule :=
  ⟨0.04, 4.0, -2.0, 0.1, 6.0, 0.1, 6.0, 1.0, -2.0⟩

/-- `gi` of `_points`: `float(stats.get(k, 0) or 0)` on a canonical stat map
(whose values are floats, so the coercion is the identity and falsy `0.0`
maps to `0`). -/
def statGet (stats : List (String × ℚ)) (k : String) : ℚ :=
  (List.lookup k stats).getD 0

/-- The canonical stat keys of the scoring formula. -/
def canonicalKeys : List String :=
  ["passingYards", "passingTouchdowns", "interceptions", "rushingYards",
   "rushingTouchdowns", "receivingYards", "receivingTouchdowns",
   "receptions", "fumblesLost"]

/-- `_points`: the linear scoring formula. -/
def points (stats : List (String × ℚ)) (R : ScoringRule) : ℚ :=
  R.pass_yd * statGet stats "passingYards" +
  R.pass_td * statGet stats "passingTouchdowns" +
  R.pass_int * statGet stats "interceptions" +
  R.rush_yd * statGet stats "rushingYards" +
  R.rush_td * statGet stats "rushingTouchdowns" +
  R.rec_yd * statGet stats "receivingYards" +
  R.rec_td * statGet stats "receivingTouchdowns" +
  R.reception * statGet stats "receptions" +
  R.fumble_lost * statGet stats "fumblesLost"

/-- Python's `{**a, **b}` on string-keyed dicts: values of duplicated keys are
overwritten in place by `b`, new keys of `b` are appended. -/
def mergeStats (a b : List (String × ℚ)) : List (String × ℚ) :=
  a.map (fun kv => match List.lookup kv.1 b with | some v => (kv.1, v) | Option.none => kv) ++
  b.filter (fun kv => (List.lookup kv.1 a).isNone)

/-!  Embedding of the scoreboard normalizer `_normalize` of
`app/services/scores.py`. -/

/-- The kickoff-formatting collaborator of the `"pre"` branch
(`datetime.fromisoformat` + timezone conversion + `strftime`); `Option.none`
models the `try` block raising, in which case the status falls back to
`"Pregame"`. -/
structure NormEnv where
  fmtKickoff : PyVal → Option String

/-- A normalized game entry (the per-game dict built by `_normalize`). -/
structure GOut where
  id : String
  away : PyVal
  home : PyVal
  awayScore : Option Int
  homeScore : Option Int
  status : String
  startTimeUtc : PyVal

/-- `comp = (ev.get("competitions") or [{}])[0]`. -/
def evComp0 (ev : PyVal) : PyDict :=
  match dget (asDict ev) "competitions" with
  | .list (c :: _) => asDict c
  | _ => []

/-- `comps = comp.get("competitors") or []`. -/
def evComps (ev : PyVal) : List PyVal :=
  orList (dget (evComp0 ev) "competitors")

/-- The home competitor: first with `homeAway == "home"`, else `comps[0]`. -/
def evHomeC (ev : PyVal) : PyDict :=
  asDict (((evComps ev).find? (fun c => isStrV (dget (asDict c) "homeAway") "home")).getD
    ((evComps ev).headD PyVal.none))

/-- The away competitor: first with `homeAway == "away"`, else `comps[-1]`. -/
def evAwayC (ev : PyVal) : PyDict :=
  asDict (((evComps ev).find? (fun c => isStrV (dget (asDict c) "homeAway") "away")).getD
    ((evComps ev).getLastD PyVal.none))

/-- `comp.get("status") or {}`. -/
def evStatus (ev : PyVal) : PyDict :=
  orDict (dget (evComp0 ev) "status")

/-- `state = ((comp.get("status") or {}).get("type") or {}).get("state")`. -/
def evState (ev : PyVal) : PyVal :=
  dget (orDict (dget (evStatus ev) "type")) "state"

/-- `(comp.get("status") or {}).get("displayClock")` (before the `or ""`). -/
def evClock (ev : PyVal) : PyVal :=
  dget (evStatus ev) "displayClock"

/-- `(comp.get("status") or {}).get("period")` (before the `or None`). -/
def evPeriod (ev : PyVal) : PyVal :=
  dget (evStatus ev) "period"

/-- `comp.get("date") or ev.get("date")`. -/
def evDate (ev : PyVal) : PyVal :=
  pyOr (dget (evComp0 ev) "date") (dget (asDict ev) "date")

/-- The `score` helper of `_normalize`: `int(c.get("score") or 0)`, `None` on
parse failure. -/
def scoreOf (c : PyDict) : Option Int :=
  pyInt (pyOr (dget c "score") (PyVal.num 0))

/-- The `abbr` helper of `_normalize`. -/
def abbrOf (c : PyDict) : PyVal :=
  let t := orDict (dget c "team")
  pyOr (dget t "abbreviation") (pyOr (dget t "shortDisplayName") (PyVal.str "UNK"))

/-- One game entry of `_normalize`; `Option.none` when the entry is skipped
for not having exactly two competitors. -/
def normalizeEvent (env : NormEnv) (ev : PyVal) : Option GOut :=
  let comps := evComps ev
  if comps.length ≠ 2 then Option.none
  else
    let home := evHomeC ev
    let away := evAwayC ev
    let state := evState ev
    let res : String × Option Int × Option Int :=
      if isStrV state "pre" then
        ((env.fmtKickoff (evDate ev)).getD "Pregame", Option.none, Option.none)
      else if isStrV state "in" then
        let period := pyOr (evPeriod ev) PyVal.none
        let q := if truthy period then "Q" ++ pyStr period else ""
        let s := strTrim (q ++ " " ++ pyStr (pyOr (evClock ev) (PyVal.str "")))
        (if s = "" then "In Progress" else s, scoreOf home, scoreOf away)
      else if isStrV state "post" then ("Final", scoreOf home, scoreOf away)
      else ("Status Unknown", Option.none, Option.none)
    some ⟨pyStr (pyOr (dget (asDict ev) "id") (PyVal.str "")),
          abbrOf away, abbrOf home, res.2.2, res.2.1, res.1, evDate ev⟩

/-- `_normalize` over the whole scoreboard payload: the normalized games list
(the surrounding `asOfUtc`/`source` fields carry no game data). -/
def normalizeScoreboard (env : NormEnv) (payload : PyVal) : List GOut :=
  (match dget (asDict payload) "events" with | .list evs => evs | _ => []).filterMap
    (normalizeEvent env)

/-- Well-formed scoreboard event: the shapes on which the Python traversal in
`_normalize` runs without raising. -/
def wfEvent (ev : PyVal) : Bool :=
  match ev with
  | .dict evd =>
    wfListF (dget evd "competitions") &&
    (match dget evd "competitions" with
     | .list (c :: _) => (match c with | .dict _ => true | _ => false)
     | _ => true) &&
    wfListF (dget (evComp0 ev) "competitors") &&
    (evComps ev).all (fun c => match c with | .dict cd => wfDictF (dget cd "team") | _ => false) &&
    wfDictF (dget (evComp0 ev) "status") &&
    wfDictF (dget (evStatus ev) "type")
  | _ => false

/-!  Embedding of `app/services/nflfastr.py` (historical statistics adapter).
The season CSV (a network resource) is supplied as the parsed list of rows:
string-to-string dicts, as `csv.DictReader` produces. -/

/-- One CSV row, as produced by `csv.DictReader`. -/
abbrev CsvRow := List (String × String)

/-- `TEAM_ALIAS_TO_NFLVERSE`. -/
def TEAM_ALIAS_TO_NFLVERSE : List (String × String) :=
  [("WSH", "WAS"), ("JAC", "JAX"), ("SD", "LAC"), ("STL", "LAR"), ("OAK", "LV"), ("LA", "LAR")]

/-- `TEAM_ALIAS_TO_ESPN`. -/
def TEAM_ALIAS_TO_ESPN : List (String × String) :=
  [("WAS", "WSH"), ("JAX", "JAX"), ("LAC", "LAC"), ("LAR", "LAR"), ("LV", "LV")]

/-- `_to_nflverse_abbr`. -/
def to_nflverse_abbr (abbr : String) : String :=
  if abbr = "" then abbr
  else
    let a := strUpper abbr
    (List.lookup a TEAM_ALIAS_TO_NFLVERSE).getD a

/-- `TEAM_ALIAS_TO_ESPN.get(team, team)` (the yield-side reverse mapping). -/
def to_espn_abbr (a : String) : String :=
  (List.lookup a TEAM_ALIAS_TO_ESPN).getD a

/-- `_convert_overall_to_nflverse`: overall week to `(season_type, week)`. -/
def convert_overall_to_nflverse (overall_week : Nat) : String × Nat :=
  if overall_week = 0 then ("REG", 1)
  else if overall_week ≤ 3 then ("PRE", overall_week)
  else ("REG", overall_week - 3)

/-- The candidate-column tuples of `nflfastr.py`. -/
def TEAM_COLS : List String := ["team", "recent_team", "team_abbr"]

def OPP_COLS : List String := ["opponent_team", "opponent", "opp"]

def POS_COLS : List String := ["position"]

def NAME_COLS : List String := ["player_display_name", "player_name", "name"]

def ID_COLS : List String := ["player_id", "gsis_id", "nflverse_id"]

def FUMBLE_LOST_CANDIDATES : List String :=
  ["rushing_fumbles_lost", "receiving_fumbles_lost", "sack_fumbles_lost", "fumbles_lost"]

/-- `_first_present_key`. -/
def first_present_key (rows : List CsvRow) (cands : List String) : Option String :=
  match rows with
  | [] => Option.none
  | r :: _ => cands.find? (fun c => (r.map Prod.fst).contains c)

/-- `_to_int`: `int(float(v))`, with `None`/empty/unparsable coerced to 0. -/
def to_int (v : Option String) : Int :=
  match v with
  | Option.none => 0
  | some s =>
    if s = "" then 0
    else match parseFloat s with
      | some q => truncRat q
      | Option.none => 0

/-- `_sum_ints`: sum `_to_int` over the columns present in the row. -/
def sum_ints (r : CsvRow) (keys : List String) : Int :=
  keys.foldl (fun total k =>
    if (r.map Prod.fst).contains k then total + to_int (List.lookup k r) else total) 0

/-- `(r.get(k) or "").upper()` where the key itself may be absent
(`r.get(None)` is `None` in Python). -/
def rget (k : Option String) (r : CsvRow) : String :=
  strUpper (match k with | some key => (List.lookup key r).getD "" | Option.none => "")

/-- `int(r.get("season", 0))`; `Option.none` models `int()` raising (the row
is then skipped by the surrounding `except`). -/
def rowSeasonInt (r : CsvRow) : Option Int :=
  match List.lookup "season" r with
  | Option.none => some 0
  | some s => pyIntOfStr s

/-- The week-mismatch test: `"week" in r and str(r["week"]).isdigit() and
int(r["week"]) != nv_week`. -/
def weekSkip (r : CsvRow) (nvWeek : Nat) : Bool :=
  match List.lookup "week" r with
  | some wv => !wv.isEmpty && wv.toList.all Char.isDigit && decide (digitsVal wv.toList ≠ nvWeek)
  | Option.none => false

/-- The season-type mismatch test: `"season_type" in r and season_type and
r["season_type"] != season_type`. -/
def typeSkip (r : CsvRow) (stype : String) : Bool :=
  match List.lookup "season_type" r with
  | some tv => !stype.isEmpty && tv != stype
  | Option.none => false

/-- The strict per-row filter of `iter_players_for_game`: season, week,
season type, team membership and (when an opponent column exists) opponent
match; rows on which `int()` raises are skipped. -/
def strictKeep (season : Int) (nvWeek : Nat) (stype : String) (homeNv awayNv : String)
    (teamKey oppKey : Option String) (r : CsvRow) : Bool :=
  match rowSeasonInt r with
  | Option.none => false
  | some n =>
    n == season &&
    !weekSkip r nvWeek &&
    !typeSkip r stype &&
    (let team := rget teamKey r
     (team == homeNv || team == awayNv) &&
     (match oppKey with
      | Option.none => true
      | some k =>
        let opp := strUpper ((List.lookup k r).getD "")
        opp == (if team == homeNv then awayNv else homeNv)))

/-- The loose fallback filter: season, week and team membership only. -/
def looseKeep (season : Int) (nvWeek : Nat) (homeNv awayNv : String)
    (teamKey : Option String) (r : CsvRow) : Bool :=
  match rowSeasonInt r with
  | Option.none => false
  | some n =>
    n == season &&
    !weekSkip r nvWeek &&
    (rget teamKey r == homeNv || rget teamKey r == awayNv)

/-- The synthesized athlete dict of the adapter. -/
structure NAthlete where
  ext_id : String
  name : String
deriving DecidableEq, Repr

/-- One canonical tuple yielded by the adapter. -/
abbrev NTuple := String × String × NAthlete × List (String × Int)

/-- The yield mapping of `iter_players_for_game`: canonical stat keys from the
fixed nflverse columns, `fumblesLost` summed over the granular lost-fumble
columns, and the team code reported back through `TEAM_ALIAS_TO_ESPN`. -/
def nflToTuple (season : Int) (teamKey : Option String) (posKey nameKey idKey : String)
    (r : CsvRow) : NTuple :=
  let team := rget teamKey r
  let pos := let p := strUpper ((List.lookup posKey r).getD ""); if p = "" then "NA" else p
  let name := strTrim ((List.lookup nameKey r).getD "")
  let pid := strTrim ((List.lookup idKey r).getD "")
  let ext_id :=
    if pid ≠ "" then pid
    else "nflverse:" ++ toString season ++ ":" ++ name ++ ":" ++ team
  let stats : List (String × Int) :=
    [("passingYards", to_int (List.lookup "passing_yards" r)),
     ("passingTouchdowns", to_int (List.lookup "passing_tds" r)),
     ("interceptions", to_int (List.lookup "interceptions" r)),
     ("rushingYards", to_int (List.lookup "rushing_yards" r)),
     ("rushingTouchdowns", to_int (List.lookup "rushing_tds" r)),
     ("receivingYards", to_int (List.lookup "receiving_yards" r)),
     ("receivingTouchdowns", to_int (List.lookup "receiving_tds" r)),
     ("receptions", to_int (List.lookup "receptions" r)),
     ("fumblesLost", sum_ints r FUMBLE_LOST_CANDIDATES)]
  (to_espn_abbr team, pos, ⟨ext_id, name⟩, stats)

/-- `iter_players_for_game`: filter the season dataset to the requested game
with the strict filter, fall back to the loose filter when it yields nothing,
and map the surviving rows to canonical tuples. -/
def iter_players_for_game (season : Int) (overall_week : Nat)
    (home_abbr away_abbr : String) (rows : List CsvRow) : List NTuple :=
  let homeNv := to_nflverse_abbr home_abbr
  let awayNv := to_nflverse_abbr away_abbr
  let stw := convert_overall_to_nflverse overall_week
  let teamKey := first_present_key rows TEAM_COLS
  let oppKey := first_present_key rows OPP_COLS
  let posKey := (first_present_key rows POS_COLS).getD "position"
  let nameKey := (first_present_key rows NAME_COLS).getD "player_display_name"
  let idKey := (first_present_key rows ID_COLS).getD "player_id"
  let strict := rows.filter (strictKeep season stw.2 stw.1 homeNv awayNv teamKey oppKey)
  let filtered := if strict.isEmpty then rows.filter (looseKeep season stw.2 homeNv awayNv teamKey) else strict
  filtered.map (nflToTuple season teamKey posKey nameKey idKey)

/-!  Embedding of `app/db/crud.py`.  Each upsert follows the same
select-by-natural-key / mutate-in-place / else-insert pattern, captured by
`sqlUpsert`; the per-entity functions instantiate it with the natural key and
the field updates of the source.  Surrogate ids and timestamp columns carry no
upsert semantics and are not modelled; `fantasy_points` is set by the caller
after the upsert and is likewise not an attribute of the upsert call. -/

/-- The `scalar_one_or_none` / mutate / `db.add` upsert pattern: if a row
matches the natural-key predicate `p`, overwrite its non-key attributes via
`f`; otherwise insert `new`.  (On a table whose natural key is unique —
`scalar_one_or_none` raises otherwise — updating every match equals updating
the single match.) -/
def sqlUpsert {α : Type} (p : α → Bool) (f : α → α) (new : α) (db : List α) : List α :=
  if db.any p then db.map (fun r => if p r then f r else r) else db ++ [new]

/-- A `teams` row. -/
structure TeamRow where
  abbr : String
  name : String
  logo_url : Option String
deriving DecidableEq, Repr

/-- A `players` row (the team relationship modelled by the team abbreviation). -/
structure PlayerRow where
  ext_id : String
  name : String
  position : Option String
  team_abbr : Option String
deriving DecidableEq, Repr

/-- A `games` row (the season relationship modelled by the year; the kickoff
instant by an integer timestamp). -/
structure GameRow where
  event_id : String
  season_year : Nat
  overall_week : Nat
  kickoff : Option Int
  status : Option String
  venue : Option String
deriving DecidableEq, Repr

/-- A `player_stats` row. -/
structure PerfRow where
  game_id : Nat
  player_id : Nat
  team_id : Nat
  position : Option String
  pass_yd : ℚ
  pass_td : ℚ
  pass_int : ℚ
  rush_yd : ℚ
  rush_td : ℚ
  rec_yd : ℚ
  rec_td : ℚ
  receptions : ℚ
  fumbles_lost : ℚ
deriving DecidableEq, Repr

/-- `_stat` of `upsert_player_perf`: `int(stats.get(k, 0))`, else
`float(stats.get(k, 0))`, else `0`. -/
def pstat (stats : PyDict) (k : String) : ℚ :=
  let v := (List.lookup k stats).getD (PyVal.num 0)
  match pyInt v with
  | some n => (n : ℚ)
  | Option.none =>
    match pyFloat v with
    | some q => q
    | Option.none => 0

/-- `upsert_team`: natural key `abbr`; updates `name` and `logo_url`. -/
def upsert_team (db : List TeamRow) (abbr name : String) (logo_url : Option String) : List TeamRow :=
  sqlUpsert (fun r => r.abbr == abbr) (fun r => ⟨r.abbr, name, logo_url⟩)
    ⟨abbr, name, logo_url⟩ db

/-- `upsert_player`: natural key `ext_id`; updates `name`, `position`, `team`. -/
def upsert_player (db : List PlayerRow) (ext_id name : String)
    (position team_abbr : Option String) : List PlayerRow :=
  sqlUpsert (fun r => r.ext_id == ext_id) (fun r => ⟨r.ext_id, name, position, team_abbr⟩)
    ⟨ext_id, name, position, team_abbr⟩ db

/-- `upsert_game`: natural key `event_id`; updates season, week, kickoff,
status and venue. -/
def upsert_game (db : List GameRow) (event_id : String) (season_year overall_week : Nat)
    (kickoff : Option Int) (status venue : Option String) : List GameRow :=
  sqlUpsert (fun r => r.event_id == event_id)
    (fun r => ⟨r.event_id, season_year, overall_week, kickoff, status, venue⟩)
    ⟨event_id, season_year, overall_week, kickoff, status, venue⟩ db

/-- `upsert_player_perf`: natural key `(game_id, player_id)`; updates position,
team and the nine stat columns extracted from the stat map via `_stat`. -/
def upsert_player_perf (db : List PerfRow) (game_id player_id team_id : Nat)
    (position : Option String) (stats : PyDict) : List PerfRow :=
  sqlUpsert (fun r => r.game_id == game_id && r.player_id == player_id)
    (fun r => ⟨r.game_id, r.player_id, team_id, position,
      pstat stats "passingYards", pstat stats "passingTouchdowns",
      pstat stats "interceptions", pstat stats "rushingYards",
      pstat stats "rushingTouchdowns", pstat stats "receivingYards",
      pstat stats "receivingTouchdowns", pstat stats "receptions",
      pstat stats "fumblesLost"⟩)
    ⟨game_id, player_id, team_id, position,
      pstat stats "passingYards", pstat stats "passingTouchdowns",
      pstat stats "interceptions", pstat stats "rushingYards",
      pstat stats "rushingTouchdowns", pstat stats "receivingYards",
      pstat stats "receivingTouchdowns", pstat stats "receptions",
      pstat stats "fumblesLost"⟩ db

/-!  The week-window calculator.  `app/main.py` imports
`_fixed_overall_week_range` from `app/services/scores.py`, but the function is
absent from the source tree; it is modelled below from the spec.
`_infer_overall_week_from_kickoff` is embedded from `app/main.py`; its input
is modelled as the Central-time calendar date of the kickoff. -/

/-- Gregorian leap-year test. -/
def isLeap (y : Nat) : Bool :=
  y % 4 == 0 && (y % 100 != 0 || y % 400 == 0)

/-- Days before month `m` in a non-leap year. -/
def monthDaysBefore : Nat → Nat
  | 1 => 0 | 2 => 31 | 3 => 59 | 4 => 90 | 5 => 120 | 6 => 151
  | 7 => 181 | 8 => 212 | 9 => 243 | 10 => 273 | 11 => 304 | 12 => 334
  | _ => 0

/-- Length of month `m` in year `y`. -/
def monthLen (y m : Nat) : Nat :=
  match m with
  | 1 => 31 | 2 => if isLeap y then 29 else 28 | 3 => 31 | 4 => 30
  | 5 => 31 | 6 => 30 | 7 => 31 | 8 => 31 | 9 => 30 | 10 => 31
  | 11 => 30 | 12 => 31
  | _ => 0

/-- Day of year of `(y, m, d)`. -/
def doy (y m d : Nat) : Nat :=
  monthDaysBefore m + d + (if 2 < m ∧ isLeap y = true then 1 else 0)

/-- Days in all years before year `y` (proleptic Gregorian, day 1 = Jan 1 of
year 1). -/
def daysBeforeYear (y : Nat) : Nat :=
  365 * (y - 1) + (y - 1) / 4 + (y - 1) / 400 - (y - 1) / 100

/-- Absolute day number of the date `(y, m, d)`. -/
def absDay (y m d : Nat) : Nat :=
  daysBeforeYear y + doy y m d

/-- A calendar date, as `datetime.date`. -/
structure CDate where
  year : Nat
  month : Nat
  day : Nat
deriving DecidableEq, Repr

/-- Calendar validity of a date. -/
def validDate (d : CDate) : Bool :=
  1 ≤ d.year && 1 ≤ d.month && d.month ≤ 12 && 1 ≤ d.day && d.day ≤ monthLen d.year d.month

/-- Absolute day number of a date. -/
def toAbs (d : CDate) : Nat :=
  absDay d.year d.month d.day

/-- Modelled from the spec: `_fixed_overall_week_range` is imported by
`app/main.py` from `app/services/scores.py` but missing from the source tree.
Per the spec's fixed-anchor rule, preseason weeks 1-3 use hardcoded August
windows (Aug 7-13, Aug 14-20, Aug 21-27, agreeing with the seeded
`pre_w1_start` of Aug 7), overall week 4 starts at the fixed September anchor
Sep 4 (the seeded `reg_w1_start`), weeks 5 and later are consecutive 7-day
windows from that anchor, and Aug 28 - Sep 3 is the intentional one-week gap
matching no week.  Returns the inclusive `(start, end)` window as absolute day
numbers within the given season year's calendar. -/
def fixed_overall_week_range (year w : Nat) : Nat × Nat :=
  if w = 1 then (absDay year 8 7, absDay year 8 13)
  else if w = 2 then (absDay year 8 14, absDay year 8 20)
  else if w = 3 then (absDay year 8 21, absDay year 8 27)
  else (absDay year 9 4 + 7 * (w - 4), absDay year 9 4 + 7 * (w - 4) + 6)

/-- `_infer_overall_week_from_kickoff` of `app/main.py`: scan overall weeks
1-21 of the kickoff date's own calendar year and return the first whose window
contains the date, defaulting to 4 (regular-season week 1). -/
def infer_overall_week_from_kickoff (d : CDate) : Nat :=
  match ((List.range 21).map (fun i => i + 1)).find? (fun w =>
      decide ((fixed_overall_week_range d.year w).1 ≤ toAbs d) &&
      decide (toAbs d ≤ (fixed_overall_week_range d.year w).2)) with
  | some w => w
  | Option.none => 4

/-!  Dictionary and association-list lemmas. -/

theorem lookup_cons {α : Type} (k a : String) (b : α) (l : List (String × α)) :
    List.lookup k ((a, b) :: l) = if k == a then some b else List.lookup k l := by
  cases h : k == a <;> simp [List.lookup, h]

theorem lookup_dictSet_self {α : Type} (d : List (String × α)) (k : String) (v : α) :
    List.lookup k (dictSet d k v) = some v := by
  induction d with
  | nil => simp [dictSet, lookup_cons]
  | cons kv rest ih =>
    cases kv with
    | mk a b =>
      by_cases h : a = k
      · subst h
        simp [dictSet, lookup_cons]
      · have hk : (k == a) = false := by
          simp only [beq_eq_false_iff_ne]
          exact fun he => h he.symm
        simp [dictSet, h, lookup_cons, hk, ih]

theorem lookup_dictSet_other {α : Type} (d : List (String × α)) (k k' : String) (v : α)
    (h : k' ≠ k) : List.lookup k' (dictSet d k v) = List.lookup k' d := by
  have hk : (k' == k) = false := by simpa [beq_eq_false_iff_ne] using h
  induction d with
  | nil => simp [dictSet, lookup_cons, hk]
  | cons kv rest ih =>
    cases kv with
    | mk a b =>
      by_cases ha : a = k
      · subst ha
        simp [dictSet, lookup_cons, hk]
      · simp [dictSet, ha, lookup_cons, ih]

theorem lookup_none_of_not_mem {α : Type} (d : List (String × α)) (k : String)
    (h : k ∉ d.map Prod.fst) : List.lookup k d = Option.none := by
  induction d with
  | nil => simp
  | cons kv rest ih =>
    simp only [List.map_cons, List.mem_cons] at h
    push_neg at h
    cases kv with
    | mk a b =>
      have hk : (k == a) = false := by simpa [beq_eq_false_iff_ne] using h.1
      simp [lookup_cons, hk, ih h.2]

theorem mem_keys_of_lookup {α : Type} (d : List (String × α)) (k : String) (v : α)
    (h : List.lookup k d = some v) : k ∈ d.map Prod.fst := by
  induction d with
  | nil => simp [List.lookup] at h
  | cons kv rest ih =>
    cases kv with
    | mk a b =>
      rw [lookup_cons] at h
      by_cases hk : (k == a) = true
      · simp only [beq_iff_eq] at hk
        simp [hk]
      · simp only [Bool.not_eq_true] at hk
        rw [hk] at h
        simp only [Bool.false_eq_true, if_false] at h
        simp [ih h]

theorem lookup_append_left {α : Type} (a b : List (String × α)) (k : String) (v : α)
    (h : List.lookup k a = some v) : List.lookup k (a ++ b) = some v := by
  induction a with
  | nil => simp [List.lookup] at h
  | cons kv rest ih =>
    cases kv with
    | mk x y =>
      rw [lookup_cons] at h
      rw [List.cons_append, lookup_cons]
      by_cases hk : (k == x) = true
      · rw [hk] at h ⊢
        simpa using h
      · simp only [Bool.not_eq_true] at hk
        rw [hk] at h ⊢
        simp only [Bool.false_eq_true, if_false] at h ⊢
        exact ih h

theorem lookup_append_right {α : Type} (a b : List (String × α)) (k : String)
    (h : List.lookup k a = Option.none) : List.lookup k (a ++ b) = List.lookup k b := by
  induction a with
  | nil => simp
  | cons kv rest ih =>
    cases kv with
    | mk x y =>
      rw [lookup_cons] at h
      rw [List.cons_append, lookup_cons]
      by_cases hk : (k == x) = true
      · rw [hk] at h
        simp at h
      · simp only [Bool.not_eq_true] at hk
        rw [hk] at h ⊢
        simp only [Bool.false_eq_true, if_false] at h ⊢
        exact ih h

/-- C9: all numeric stat coercion in the resolver (`coerce_num`) and the
historical adapter (`_to_int`) is total — both are plain functions into exact
numbers, with no failure channel — and coerces missing (`None`), empty-string
and non-numeric inputs to zero, while comma-formatted numbers are cleaned and
parsed by `coerce_num`. -/
theorem numeric_coercion_defensive :
    (coerce_num PyVal.none = 0) ∧
    (coerce_num (PyVal.str "") = 0) ∧
    (∀ q : ℚ, coerce_num (PyVal.num q) = q) ∧
    (∀ s : String, parseFloat s = Option.none → parseFloat (stripCommas s) = Option.none →
      coerce_num (PyVal.str s) = 0) ∧
    (∀ s : String, ∀ q : ℚ, parseFloat s = Option.none → parseFloat (stripCommas s) = some q →
      coerce_num (PyVal.str s) = q) ∧
    (coerce_num (PyVal.str "1,234") = 1234) ∧
    (to_int Option.none = 0) ∧
    (to_int (some "") = 0) ∧
    (∀ s : String, s ≠ "" → parseFloat s = Option.none → to_int (some s) = 0) ∧
    (to_int (some "17.6") = 17) := by
  refine ⟨by decide, by decide, fun q => rfl, ?_, ?_, by decide, rfl, by decide, ?_, by decide⟩
  · intro s h1 h2
    simp [coerce_num, pyFloat, pyStr, h1, h2]
  · intro s q h1 h2
    simp [coerce_num, pyFloat, pyStr, h1, h2]
  · intro s hs h1
    simp [to_int, hs, h1]

/-- Witness for C9 at concrete non-numeric and missing inputs. -/
theorem numeric_coercion_defensive_check :
    coerce_num (PyVal.str "DNP") = 0 ∧ to_int (some "n/a") = 0 ∧ coerce_num (PyVal.num 7) = 7 :=
  ⟨numeric_coercion_defensive.2.2.2.1 "DNP" (by decide) (by decide),
   numeric_coercion_defensive.2.2.2.2.2.2.2.2.1 "n/a" (by decide) (by decide),
   numeric_coercion_defensive.2.2.1 7⟩

/-!  Claim C3: linearity of the scoring engine. -/

theorem statGet_append (a b : List (String × ℚ)) (k : String)
    (hd : ∀ k' ∈ a.map Prod.fst, k' ∉ b.map Prod.fst) :
    statGet (a ++ b) k = statGet a k + statGet b k := by
  unfold statGet
  cases h : List.lookup k a with
  | some v =>
    rw [lookup_append_left a b k v h]
    have : List.lookup k b = Option.none :=
      lookup_none_of_not_mem b k (hd k (mem_keys_of_lookup a k v h))
    simp [this]
  | none =>
    rw [lookup_append_right a b k h]
    simp

theorem mergeStats_disjoint (a b : List (String × ℚ))
    (hd : ∀ k ∈ a.map Prod.fst, k ∉ b.map Prod.fst) :
    mergeStats a b = a ++ b := by
  unfold mergeStats
  have h1 : a.map (fun kv => match List.lookup kv.1 b with
      | some v => (kv.1, v) | Option.none => kv) = a := by
    have : ∀ kv ∈ a, (match List.lookup kv.1 b with
        | some v => (kv.1, v) | Option.none => kv) = kv := by
      intro kv hkv
      have : List.lookup kv.1 b = Option.none :=
        lookup_none_of_not_mem b kv.1 (hd kv.1 (List.mem_map_of_mem Prod.fst hkv))
      simp [this]
    calc a.map _ = a.map id := List.map_congr_left this
    _ = a := List.map_id a
  have h2 : b.filter (fun kv => (List.lookup kv.1 a).isNone) = b := by
    rw [List.filter_eq_self]
    intro kv hkv
    cases h : List.lookup kv.1 a with
    | some v =>
      exact absurd (List.mem_map_of_mem Prod.fst hkv)
        (hd kv.1 (mem_keys_of_lookup a kv.1 v h))
    | none => simp
  rw [h1, h2]

/-- C3: the scoring engine is strictly linear — the empty stat map scores 0
for every rule, inserting a non-canonical (unknown) key never changes the
score, and the score of a merge of two disjoint stat maps is the sum of their
scores. -/
theorem points_strictly_linear :
    (∀ R : ScoringRule, points [] R = 0) ∧
    (∀ (R : ScoringRule) (stats : List (String × ℚ)) (k : String) (v : ℚ),
      k ∉ canonicalKeys → points (dictSet stats k v) R = points stats R) ∧
    (∀ (R : ScoringRule) (a b : List (String × ℚ)),
      (∀ k ∈ a.map Prod.fst, k ∉ b.map Prod.fst) →
      points (mergeStats a b) R = points a R + points b R) := by
  refine ⟨?_, ?_, ?_⟩
  · intro R
    simp [points, statGet, List.lookup]
  · intro R stats k v hk
    have h9 : ∀ c ∈ canonicalKeys, statGet (dictSet stats k v) c = statGet stats c := by
      intro c hc
      unfold statGet
      rw [lookup_dictSet_other stats k c v (fun he => hk (he ▸ hc))]
    simp only [points]
    rw [h9 "passingYards" (by decide), h9 "passingTouchdowns" (by decide),
        h9 "interceptions" (by decide), h9 "rushingYards" (by decide),
        h9 "rushingTouchdowns" (by decide), h9 "receivingYards" (by decide),
        h9 "receivingTouchdowns" (by decide), h9 "receptions" (by decide),
        h9 "fumblesLost" (by decide)]
  · intro R a b hd
    rw [mergeStats_disjoint a b hd]
    simp only [points]
    rw [statGet_append a b "passingYards" hd, statGet_append a b "passingTouchdowns" hd,
        statGet_append a b "interceptions" hd, statGet_append a b "rushingYards" hd,
        statGet_append a b "rushingTouchdowns" hd, statGet_append a b "receivingYards" hd,
        statGet_append a b "receivingTouchdowns" hd, statGet_append a b "receptions" hd,
        statGet_append a b "fumblesLost" hd]
    ring

/-- Witness for C3 at concrete stat maps and the seeded Full-PPR rule. -/
theorem points_strictly_linear_check :
    points (mergeStats [("receptions", (4 : ℚ))] [("rushingYards", (10 : ℚ))]) fullPPR =
      points [("receptions", (4 : ℚ))] fullPPR + points [("rushingYards", (10 : ℚ))] fullPPR ∧
    points [] fullPPR = 0 ∧
    points (dictSet [("receptions", (4 : ℚ))] "uniformNumber" 99) fullPPR =
      points [("receptions", (4 : ℚ))] fullPPR :=
  ⟨points_strictly_linear.2.2 fullPPR _ _ (by decide),
   points_strictly_linear.1 fullPPR,
   points_strictly_linear.2.1 fullPPR _ _ _ (by decide)⟩

/-!  Claim C4: explicit `fumblesLost` wins over aliased variants. -/

theorem coerceFloat_id (q : ℚ) : coerceFloat q = q := rfl

theorem canonStep_preserve (acc : List (String × ℚ)) (kv : String × ℚ)
    (h1 : kv.1 ≠ "fumblesLost") :
    List.lookup "fumblesLost" (canonStep true acc kv) = List.lookup "fumblesLost" acc := by
  unfold canonStep
  by_cases hc : (aliasOf kv.1 == "fumblesLost") = true
  · have hne : (kv.1 != "fumblesLost") = true := by simpa [bne_iff_ne] using h1
    simp [hc, hne]
  · simp only [Bool.not_eq_true] at hc
    simp only [hc, Bool.false_and, Bool.and_false, if_neg Bool.false_ne_true]
    refine lookup_dictSet_other acc (aliasOf kv.1) "fumblesLost" (coerceFloat kv.2) ?_
    intro he
    rw [← he] at hc
    simp at hc

theorem foldl_canonStep_preserve (l : List (String × ℚ)) (acc : List (String × ℚ))
    (h : ∀ kv ∈ l, kv.1 ≠ "fumblesLost") :
    List.lookup "fumblesLost" (l.foldl (canonStep true) acc) =
      List.lookup "fumblesLost" acc := by
  induction l generalizing acc with
  | nil => rfl
  | cons x t ih =>
    rw [List.foldl_cons]
    rw [ih _ (fun kv hkv => h kv (List.mem_cons_of_mem _ hkv))]
    exact canonStep_preserve acc x (h x (List.mem_cons_self _ _))

/-- C4: in the stat-key canonicalization of `_summary_players_iter`, a stat row
carrying both an explicit `fumblesLost` key and the aliased variant `fumbles`
yields the explicit `fumblesLost` value unchanged in the canonical output — the
aliased variant never overwrites it.  (`stats` is a Python dict, so its keys
are unique.) -/
theorem fumbles_explicit_wins (stats : List (String × ℚ)) (v : ℚ)
    (hnd : (stats.map Prod.fst).Nodup)
    (hmem : ("fumblesLost", v) ∈ stats)
    (halias : "fumbles" ∈ stats.map Prod.fst) :
    List.lookup "fumblesLost" (canonicalizeStats stats) = some v := by
  have hasTrue : stats.any (fun kv => kv.1 == "fumblesLost") = true := by
    rw [List.any_eq_true]
    exact ⟨_, hmem, by simp⟩
  obtain ⟨pre, post, rfl⟩ := List.append_of_mem hmem
  unfold canonicalizeStats
  rw [hasTrue, List.foldl_append, List.foldl_cons]
  have hnotpost : "fumblesLost" ∉ post.map Prod.fst := by
    simp only [List.map_append, List.map_cons] at hnd
    exact (List.nodup_cons.mp (List.nodup_append.mp hnd).2.1).1
  have hpost : ∀ kv ∈ post, kv.1 ≠ "fumblesLost" := by
    intro kv hkv he
    exact hnotpost (he ▸ List.mem_map_of_mem Prod.fst hkv)
  rw [foldl_canonStep_preserve post _ hpost]
  have ha : aliasOf "fumblesLost" = "fumblesLost" := by decide
  simp [canonStep, ha, coerceFloat_id, lookup_dictSet_self]

/-- Witness for C4 at a concrete stat row containing both keys. -/
theorem fumbles_explicit_wins_check :
    List.lookup "fumblesLost"
      (canonicalizeStats [("fumbles", (2 : ℚ)), ("fumblesLost", (1 : ℚ))]) = some 1 :=
  fumbles_explicit_wins [("fumbles", (2 : ℚ)), ("fumblesLost", (1 : ℚ))] 1
    (by decide) (by decide) (by decide)

/-!  Claim C1: tier-1 short-circuit of the statistics resolver. -/

/-- C1: whenever tier-1 extraction from the summary payload yields at least
one player tuple, `_iter_players` yields exactly those tier-1 tuples and makes
zero tier-2 (rendered-page) fetches and zero tier-3 (core-graph) calls,
whatever the fetchers would return. -/
theorem iter_players_tier1_short_circuit (env : FetchEnv) (summary : PyDict)
    (hwf : wfSummary summary = true)
    (h1 : summary_players_iter summary ≠ []) :
    iter_players env summary = (summary_players_iter summary, 0, 0) := by
  unfold iter_players
  cases ht : summary_players_iter summary with
  | nil => exact absurd ht h1
  | cons a l => simp [ht]

/-- Witness for C1: a concrete well-formed summary payload with one athlete;
the resolver returns exactly the tier-1 tuples and performs no tier-2 or
tier-3 calls, even against an environment whose fetchers would answer. -/
theorem iter_players_tier1_short_circuit_check :
    let pay : PyDict :=
      [("header", PyVal.dict [("id", PyVal.str "401")]),
       ("boxscore", PyVal.dict [("teams", PyVal.list [
          PyVal.dict [("team", PyVal.dict [("abbreviation", PyVal.str "kc")]),
            ("players", PyVal.list [
              PyVal.dict [("position", PyVal.dict [("abbreviation", PyVal.str "QB")]),
                ("athletes", PyVal.list [
                  PyVal.dict [("athlete", PyVal.dict [("id", PyVal.num 15), ("displayName", PyVal.str "P")]),
                    ("stats", PyVal.dict [("rec", PyVal.num 4)])]])]])]])])]
    let env : FetchEnv :=
      ⟨fun _ => some (PyVal.dict [("page", PyVal.str "x")]), fun _ => [("XX", "", [], [])]⟩
    wfSummary pay = true ∧ (summary_players_iter pay).length = 1 ∧
      iter_players env pay = (summary_players_iter pay, 0, 0) := by
  intro pay env
  have hlen : (summary_players_iter pay).length = 1 := by decide
  refine ⟨by decide, hlen, ?_⟩
  refine iter_players_tier1_short_circuit env pay (by decide) ?_
  intro hc
  rw [hc] at hlen
  exact absurd hlen (by decide)

/-!  Claim C6: loose-filter fallback of the historical adapter. -/

/-- C6: whenever the strict filter (season + week + season type + team pair +
opponent when available) matches zero rows of the dataset, the adapter falls
back to the looser filter (season + week + team membership only) and yields
exactly those rows, mapped to canonical tuples — the request is served, not
failed. -/
theorem adapter_loose_fallback (season : Int) (overall_week : Nat)
    (home_abbr away_abbr : String) (rows : List CsvRow)
    (hstrict : rows.filter (strictKeep season (convert_overall_to_nflverse overall_week).2
      (convert_overall_to_nflverse overall_week).1
      (to_nflverse_abbr home_abbr) (to_nflverse_abbr away_abbr)
      (first_present_key rows TEAM_COLS) (first_present_key rows OPP_COLS)) = []) :
    iter_players_for_game season overall_week home_abbr away_abbr rows =
      (rows.filter (looseKeep season (convert_overall_to_nflverse overall_week).2
        (to_nflverse_abbr home_abbr) (to_nflverse_abbr away_abbr)
        (first_present_key rows TEAM_COLS))).map
        (nflToTuple season (first_present_key rows TEAM_COLS)
          ((first_present_key rows POS_COLS).getD "position")
          ((first_present_key rows NAME_COLS).getD "player_display_name")
          ((first_present_key rows ID_COLS).getD "player_id")) := by
  simp only [iter_players_for_game]
  rw [hstrict]
  rfl

/-- Witness for C6: a dataset row whose opponent column mismatches (so the
strict filter is empty) is still yielded through the loose fallback. -/
theorem adapter_loose_fallback_check :
    let row : CsvRow :=
      [("season", "2023"), ("week", "1"), ("season_type", "REG"), ("team", "KC"),
       ("opponent_team", "DEN"), ("position", "QB"), ("player_display_name", "Foo Bar"),
       ("player_id", "p1"), ("passing_yards", "250.0")]
    iter_players_for_game 2023 4 "KC" "PHI" [row] =
      ([row].filter (looseKeep 2023 1 "KC" "PHI" (some "team"))).map
        (nflToTuple 2023 (some "team") "position" "player_display_name" "player_id") ∧
    (iter_players_for_game 2023 4 "KC" "PHI" [row]).length = 1 := by
  intro row
  constructor
  · exact adapter_loose_fallback 2023 4 "KC" "PHI" [row] (by decide)
  · decide

/-!  Claim C5 (corrected): team-code translation of the historical adapter. -/

theorem strictKeep_team (season : Int) (nvWeek : Nat) (stype homeNv awayNv : String)
    (teamKey oppKey : Option String) (r : CsvRow)
    (h : strictKeep season nvWeek stype homeNv awayNv teamKey oppKey r = true) :
    rget teamKey r = homeNv ∨ rget teamKey r = awayNv := by
  unfold strictKeep at h
  cases hs : rowSeasonInt r with
  | none => rw [hs] at h; exact absurd h (by simp)
  | some n =>
    rw [hs] at h
    simp only [Bool.and_eq_true] at h
    have h4 := h.2.1
    rcases Bool.or_eq_true _ _ |>.mp h4 with hh | hh
    · exact Or.inl (by simpa using hh)
    · exact Or.inr (by simpa using hh)

theorem looseKeep_team (season : Int) (nvWeek : Nat) (homeNv awayNv : String)
    (teamKey : Option String) (r : CsvRow)
    (h : looseKeep season nvWeek homeNv awayNv teamKey r = true) :
    rget teamKey r = homeNv ∨ rget teamKey r = awayNv := by
  unfold looseKeep at h
  cases hs : rowSeasonInt r with
  | none => rw [hs] at h; exact absurd h (by simp)
  | some n =>
    rw [hs] at h
    simp only [Bool.and_eq_true] at h
    rcases Bool.or_eq_true _ _ |>.mp h.2 with hh | hh
    · exact Or.inl (by simpa using hh)
    · exact Or.inr (by simpa using hh)

/-- C5 (amended): the adapter translates both team codes into the
nflverse space before filtering, and every yielded tuple carries the
`TEAM_ALIAS_TO_ESPN` reverse translation of its row's nflverse code — i.e. one
of `to_espn_abbr (to_nflverse_abbr home_abbr)` / `to_espn_abbr
(to_nflverse_abbr away_abbr)`.  The round-trip restores the original live-API
abbreviation exactly when the code is a fixed point of that composite (as WSH
is); relocation legacy codes such as OAK, SD, STL are yielded as their modern
equivalents LV, LAC, LAR, not as the original input. -/
theorem adapter_team_reverse_translation (season : Int) (overall_week : Nat)
    (home_abbr away_abbr : String) (rows : List CsvRow) :
    (∀ t ∈ iter_players_for_game season overall_week home_abbr away_abbr rows,
      t.1 = to_espn_abbr (to_nflverse_abbr home_abbr) ∨
      t.1 = to_espn_abbr (to_nflverse_abbr away_abbr)) ∧
    to_espn_abbr (to_nflverse_abbr "WSH") = "WSH" := by
  constructor
  · intro t ht
    simp only [iter_players_for_game] at ht
    rw [List.mem_map] at ht
    obtain ⟨r, hr, rfl⟩ := ht
    have hteam : rget (first_present_key rows TEAM_COLS) r = to_nflverse_abbr home_abbr ∨
        rget (first_present_key rows TEAM_COLS) r = to_nflverse_abbr away_abbr := by
      split at hr
      · exact looseKeep_team _ _ _ _ _ r (List.mem_filter.mp hr).2
      · exact strictKeep_team _ _ _ _ _ _ _ r (List.mem_filter.mp hr).2
    simp only [nflToTuple]
    rcases hteam with hh | hh
    · exact Or.inl (by rw [hh])
    · exact Or.inr (by rw [hh])
  · decide

/-- Witness for C5's amended theorem: a concrete OAK/KC request over one LV
dataset row; the single yielded tuple carries a reverse-translated code. -/
theorem adapter_team_reverse_translation_check :
    let row : CsvRow :=
      [("season", "2023"), ("week", "1"), ("season_type", "REG"), ("team", "LV"),
       ("opponent_team", "KC"), ("position", "QB"), ("player_display_name", "Foo Bar"),
       ("player_id", "p1")]
    let out := iter_players_for_game 2023 4 "OAK" "KC" [row]
    out.length = 1 ∧
      ((out.headD ("", "", ⟨"", ""⟩, [])).1 = to_espn_abbr (to_nflverse_abbr "OAK") ∨
       (out.headD ("", "", ⟨"", ""⟩, [])).1 = to_espn_abbr (to_nflverse_abbr "KC")) := by
  intro row out
  refine ⟨by decide, ?_⟩
  exact (adapter_team_reverse_translation 2023 4 "OAK" "KC" [row]).1
    (out.headD ("", "", ⟨"", ""⟩, [])) (by decide)

/-- Counterexample for C5 as stated: with `home_abbr = "OAK"` the matching
dataset row (nflverse code LV) is yielded with team code `"LV"`, not the
original live-API abbreviation `"OAK"` — the translation does not round-trip
for relocation legacy codes. -/
theorem adapter_team_roundtrip_cex :
    (iter_players_for_game 2023 4 "OAK" "KC"
      [[("season", "2023"), ("week", "1"), ("season_type", "REG"), ("team", "LV"),
        ("opponent_team", "KC"), ("position", "QB"), ("player_display_name", "Foo Bar"),
        ("player_id", "p1")]]).map (fun t => t.1) = ["LV"] ∧ ("LV" : String) ≠ "OAK" := by
  constructor
  · decide
  · decide

/-!  Claim C7: idempotent upsert by natural key. -/

theorem filter_map_untouched {α : Type} (p : α → Bool) (g : α → α) (l : List α)
    (hl : ∀ x ∈ l, p x = false) (hg : ∀ x ∈ l, p x = false → g x = x) :
    (l.map g).filter p = [] := by
  induction l with
  | nil => rfl
  | cons a t ih =>
    have ha : p a = false := hl a (List.mem_cons_self _ _)
    rw [List.map_cons, List.filter_cons]
    rw [hg a (List.mem_cons_self _ _) ha, ha]
    simp only [Bool.false_eq_true, if_false]
    exact ih (fun x hx => hl x (List.mem_cons_of_mem _ hx))
      (fun x hx => hg x (List.mem_cons_of_mem _ hx))

theorem sqlUpsert_filter_twice {α : Type} (p : α → Bool) (f1 f2 : α → α) (n1 n2 : α)
    (hn1 : p n1 = true)
    (hf1 : ∀ x, p x = true → p (f1 x) = true)
    (hf2 : ∀ x, p x = true → f2 x = f2 n1)
    (hpf2 : p (f2 n1) = true) :
    ∀ l : List α, (l.filter p).length ≤ 1 →
      (sqlUpsert p f2 n2 (sqlUpsert p f1 n1 l)).filter p = [f2 n1] := by
  have key : ∀ l : List α, (l.filter p).length ≤ 1 → l.any p = true →
      ((l.map (fun x => if p x then f2 (f1 x) else x)).filter p) = [f2 n1] := by
    intro l
    induction l with
    | nil => intro _ h; simp at h
    | cons a t ih =>
      intro hcnt hany
      by_cases hpa : p a = true
      · have hfil : t.filter p = [] := by
          rcases hl : t.filter p with _ | ⟨x, xs⟩
          · rfl
          · exfalso
            rw [List.filter_cons, hpa, hl] at hcnt
            simp at hcnt
        have ht : ∀ x ∈ t, p x = false := by
          intro x hx
          by_contra hc
          simp only [Bool.not_eq_false] at hc
          have hmem : x ∈ t.filter p := List.mem_filter.mpr ⟨hx, hc⟩
          rw [hfil] at hmem
          cases hmem
        have h2 : f2 (f1 a) = f2 n1 := hf2 (f1 a) (hf1 a hpa)
        rw [List.map_cons, List.filter_cons]
        simp only [hpa, if_true, h2, hpf2]
        rw [filter_map_untouched p _ t ht (fun x _ hx => by rw [hx]; simp)]
      · simp only [Bool.not_eq_true] at hpa
        have hant : t.any p = true := by
          rcases List.any_eq_true.mp hany with ⟨x, hx, hpx⟩
          rcases List.mem_cons.mp hx with rfl | hxt
          · rw [hpa] at hpx; cases hpx
          · exact List.any_eq_true.mpr ⟨x, hxt, hpx⟩
        have hcnt' : (t.filter p).length ≤ 1 := by
          rw [List.filter_cons, hpa] at hcnt
          simpa using hcnt
        rw [List.map_cons, if_neg (by simp [hpa]), List.filter_cons, hpa]
        simp only [Bool.false_eq_true, if_false]
        exact ih hcnt' hant
  intro l hcnt
  unfold sqlUpsert
  by_cases hany : l.any p = true
  · rw [if_pos hany]
    have hany2 : (l.map (fun r => if p r then f1 r else r)).any p = true := by
      rcases List.any_eq_true.mp hany with ⟨x, hx, hpx⟩
      refine List.any_eq_true.mpr ⟨f1 x, ?_, hf1 x hpx⟩
      rcases List.mem_map.mp (List.mem_map_of_mem (fun r => if p r then f1 r else r) hx) with _
      exact List.mem_map.mpr ⟨x, hx, by rw [if_pos hpx]⟩
    rw [if_pos hany2, List.map_map]
    have : ((fun r => if p r then f2 r else r) ∘ fun r => if p r then f1 r else r) =
        fun x => if p x then f2 (f1 x) else x := by
      funext x
      by_cases hx : p x = true
      · simp [hx, hf1 x hx]
      · simp only [Bool.not_eq_true] at hx
        simp [hx]
    rw [this]
    exact key l hcnt hany
  · rw [if_neg hany]
    simp only [Bool.not_eq_true] at hany
    have hall : ∀ x ∈ l, p x = false := by
      intro x hx
      by_contra hc
      simp only [Bool.not_eq_false] at hc
      rw [List.any_eq_true.mpr ⟨x, hx, hc⟩] at hany
      cases hany
    have hany3 : (l ++ [n1]).any p = true :=
      List.any_eq_true.mpr ⟨n1, by simp, hn1⟩
    rw [if_pos hany3, List.map_append, List.filter_append]
    rw [filter_map_untouched p _ l hall (fun x _ hx => by rw [hx]; simp)]
    simp only [List.map_cons, List.map_nil, List.filter_cons]
    rw [if_pos hn1, hf2 n1 hn1, hpf2]
    simp

/-- C7: every upsert of `crud.py` is idempotent by natural key — running the
same upsert twice with an identical natural key (team `abbr`; player `ext_id`;
game `event_id`; `(game, player)` for statistics) and different attribute
values leaves exactly one row for that key, carrying the attribute values of
the latest call.  (The hypothesis that the key matches at most one existing
row is the uniqueness invariant `scalar_one_or_none` enforces.) -/
theorem upserts_idempotent :
    (∀ (db : List TeamRow) (abbr na1 na2 : String) (l1 l2 : Option String),
      (db.filter (fun r => r.abbr == abbr)).length ≤ 1 →
      (upsert_team (upsert_team db abbr na1 l1) abbr na2 l2).filter (fun r => r.abbr == abbr) =
        [⟨abbr, na2, l2⟩]) ∧
    (∀ (db : List PlayerRow) (eid na1 na2 : String) (p1 p2 t1 t2 : Option String),
      (db.filter (fun r => r.ext_id == eid)).length ≤ 1 →
      (upsert_player (upsert_player db eid na1 p1 t1) eid na2 p2 t2).filter
        (fun r => r.ext_id == eid) = [⟨eid, na2, p2, t2⟩]) ∧
    (∀ (db : List GameRow) (eid : String) (s1 s2 w1 w2 : Nat) (k1 k2 : Option Int)
        (st1 st2 v1 v2 : Option String),
      (db.filter (fun r => r.event_id == eid)).length ≤ 1 →
      (upsert_game (upsert_game db eid s1 w1 k1 st1 v1) eid s2 w2 k2 st2 v2).filter
        (fun r => r.event_id == eid) = [⟨eid, s2, w2, k2, st2, v2⟩]) ∧
    (∀ (db : List PerfRow) (gid pid tid1 tid2 : Nat) (p1 p2 : Option String) (st1 st2 : PyDict),
      (db.filter (fun r => r.game_id == gid && r.player_id == pid)).length ≤ 1 →
      (upsert_player_perf (upsert_player_perf db gid pid tid1 p1 st1) gid pid tid2 p2 st2).filter
        (fun r => r.game_id == gid && r.player_id == pid) =
        [⟨gid, pid, tid2, p2, pstat st2 "passingYards", pstat st2 "passingTouchdowns",
          pstat st2 "interceptions", pstat st2 "rushingYards", pstat st2 "rushingTouchdowns",
          pstat st2 "receivingYards", pstat st2 "receivingTouchdowns", pstat st2 "receptions",
          pstat st2 "fumblesLost"⟩]) := by
  refine ⟨?_, ?_, ?_, ?_⟩
  · intro db abbr na1 na2 l1 l2 hcnt
    exact sqlUpsert_filter_twice (fun r => r.abbr == abbr)
      (fun r => ⟨r.abbr, na1, l1⟩) (fun r => ⟨r.abbr, na2, l2⟩)
      ⟨abbr, na1, l1⟩ ⟨abbr, na2, l2⟩ (by simp)
      (fun x hx => hx)
      (fun x hx => by cases x with | mk a b c => simp at hx; subst hx; rfl)
      (by simp) db hcnt
  · intro db eid na1 na2 p1 p2 t1 t2 hcnt
    exact sqlUpsert_filter_twice (fun r => r.ext_id == eid)
      (fun r => ⟨r.ext_id, na1, p1, t1⟩) (fun r => ⟨r.ext_id, na2, p2, t2⟩)
      ⟨eid, na1, p1, t1⟩ ⟨eid, na2, p2, t2⟩ (by simp)
      (fun x hx => hx)
      (fun x hx => by cases x with | mk a b c d => simp at hx; subst hx; rfl)
      (by simp) db hcnt
  · intro db eid s1 s2 w1 w2 k1 k2 st1 st2 v1 v2 hcnt
    exact sqlUpsert_filter_twice (fun r => r.event_id == eid)
      (fun r => ⟨r.event_id, s1, w1, k1, st1, v1⟩) (fun r => ⟨r.event_id, s2, w2, k2, st2, v2⟩)
      ⟨eid, s1, w1, k1, st1, v1⟩ ⟨eid, s2, w2, k2, st2, v2⟩ (by simp)
      (fun x hx => hx)
      (fun x hx => by cases x with | mk a b c d e f => simp at hx; subst hx; rfl)
      (by simp) db hcnt
  · intro db gid pid tid1 tid2 p1 p2 st1 st2 hcnt
    exact sqlUpsert_filter_twice (fun r => r.game_id == gid && r.player_id == pid)
      (fun r => ⟨r.game_id, r.player_id, tid1, p1,
        pstat st1 "passingYards", pstat st1 "passingTouchdowns", pstat st1 "interceptions",
        pstat st1 "rushingYards", pstat st1 "rushingTouchdowns", pstat st1 "receivingYards",
        pstat st1 "receivingTouchdowns", pstat st1 "receptions", pstat st1 "fumblesLost"⟩)
      (fun r => ⟨r.game_id, r.player_id, tid2, p2,
        pstat st2 "passingYards", pstat st2 "passingTouchdowns", pstat st2 "interceptions",
        pstat st2 "rushingYards", pstat st2 "rushingTouchdowns", pstat st2 "receivingYards",
        pstat st2 "receivingTouchdowns", pstat st2 "receptions", pstat st2 "fumblesLost"⟩)
      ⟨gid, pid, tid1, p1,
        pstat st1 "passingYards", pstat st1 "passingTouchdowns", pstat st1 "interceptions",
        pstat st1 "rushingYards", pstat st1 "rushingTouchdowns", pstat st1 "receivingYards",
        pstat st1 "receivingTouchdowns", pstat st1 "receptions", pstat st1 "fumblesLost"⟩
      ⟨gid, pid, tid2, p2,
        pstat st2 "passingYards", pstat st2 "passingTouchdowns", pstat st2 "interceptions",
        pstat st2 "rushingYards", pstat st2 "rushingTouchdowns", pstat st2 "receivingYards",
        pstat st2 "receivingTouchdowns", pstat st2 "receptions", pstat st2 "fumblesLost"⟩
      (by simp)
      (fun x hx => hx)
      (fun x hx => by
        cases x
        simp only [Bool.and_eq_true, beq_iff_eq] at hx
        obtain ⟨h1, h2⟩ := hx
        subst h1
        subst h2
        rfl)
      (by simp) db hcnt

/-- Witness for C7: double upserts into an empty store, each leaving exactly
one row with the second call's attribute values. -/
theorem upserts_idempotent_check :
    (upsert_team (upsert_team [] "KC" "Chiefs" Option.none) "KC" "Kansas City"
      (some "logo.png")).filter (fun r => r.abbr == "KC") =
      [⟨"KC", "Kansas City", some "logo.png"⟩] ∧
    (upsert_player (upsert_player [] "p1" "Foo" (some "QB") Option.none) "p1" "Foo Bar"
      (some "WR") (some "KC")).filter (fun r => r.ext_id == "p1") =
      [⟨"p1", "Foo Bar", some "WR", some "KC"⟩] ∧
    (upsert_game (upsert_game [] "401" 2024 4 Option.none (some "pre") Option.none)
      "401" 2025 5 (some 100) (some "post") (some "Arrowhead")).filter
        (fun r => r.event_id == "401") =
      [⟨"401", 2025, 5, some 100, some "post", some "Arrowhead"⟩] ∧
    (upsert_player_perf (upsert_player_perf [] 1 2 3 (some "QB")
        [("passingYards", PyVal.num 100)]) 1 2 4 (some "WR")
        [("receptions", PyVal.num 5)]).filter
        (fun r => r.game_id == 1 && r.player_id == 2) =
      [⟨1, 2, 4, some "WR", pstat [("receptions", PyVal.num 5)] "passingYards",
        pstat [("receptions", PyVal.num 5)] "passingTouchdowns",
        pstat [("receptions", PyVal.num 5)] "interceptions",
        pstat [("receptions", PyVal.num 5)] "rushingYards",
        pstat [("receptions", PyVal.num 5)] "rushingTouchdowns",
        pstat [("receptions", PyVal.num 5)] "receivingYards",
        pstat [("receptions", PyVal.num 5)] "receivingTouchdowns",
        pstat [("receptions", PyVal.num 5)] "receptions",
        pstat [("receptions", PyVal.num 5)] "fumblesLost"⟩] :=
  ⟨upserts_idempotent.1 [] "KC" "Chiefs" "Kansas City" Option.none (some "logo.png") (by decide),
   upserts_idempotent.2.1 [] "p1" "Foo" "Foo Bar" (some "QB") (some "WR") Option.none
     (some "KC") (by decide),
   upserts_idempotent.2.2.1 [] "401" 2024 2025 4 5 Option.none (some 100) (some "pre")
     (some "post") Option.none (some "Arrowhead") (by decide),
   upserts_idempotent.2.2.2 [] 1 2 3 4 (some "QB") (some "WR")
     [("passingYards", PyVal.num 100)] [("receptions", PyVal.num 5)] (by decide)⟩

/-!  Claim C8 (corrected): status strings of the scoreboard normalizer. -/

/-- C8 (amended): in the scoreboard normalizer, an `"in"`-state entry renders
the generic "In Progress" when the display clock is empty AND the period is
absent/falsy (a truthy period yields the bare quarter label instead);
a `"post"`-state entry renders exactly "Final"; an entry whose state is none
of `"pre"`/`"in"`/`"post"` renders "Status Unknown". -/
theorem scoreboard_status_derivation (env : NormEnv) (ev : PyVal) (g : GOut)
    (hwf : wfEvent ev = true) (hn : normalizeEvent env ev = some g) :
    (evState ev = PyVal.str "in" → truthy (evClock ev) = false → truthy (evPeriod ev) = false →
      g.status = "In Progress") ∧
    (evState ev = PyVal.str "post" → g.status = "Final") ∧
    (isStrV (evState ev) "pre" = false → isStrV (evState ev) "in" = false →
      isStrV (evState ev) "post" = false → g.status = "Status Unknown") := by
  simp only [normalizeEvent] at hn
  split at hn
  · exact absurd hn (by simp)
  · rw [Option.some.injEq] at hn
    subst hn
    have hs0 : strTrim ("" ++ " " ++ "") = "" := by decide
    refine ⟨?_, ?_, ?_⟩
    · intro h1 h2 h3
      show (if isStrV (evState ev) "pre" = true then _ else _ : String × Option Int × Option Int).1 = _
      rw [h1]
      simp only [isStrV, pyOr, h2, h3]
      simp only [show (("in" : String) == "pre") = false from by decide,
        show (("in" : String) == "in") = true from by decide,
        Bool.false_eq_true, if_false, if_true, Bool.true_eq_false]
      simp only [truthy, Bool.false_eq_true, if_false]
      simp only [pyStr, hs0]
      decide
    · intro h1
      show (if isStrV (evState ev) "pre" = true then _ else _ : String × Option Int × Option Int).1 = _
      rw [h1]
      simp only [isStrV, show (("post" : String) == "pre") = false from by decide,
        show (("post" : String) == "in") = false from by decide,
        show (("post" : String) == "post") = true from by decide,
        Bool.false_eq_true, if_false, if_true]
    · intro h1 h2 h3
      show (if isStrV (evState ev) "pre" = true then _ else _ : String × Option Int × Option Int).1 = _
      rw [h1, h2, h3]
      simp only [Bool.false_eq_true, if_false]

/-- The trivial formatting environment (its answer is irrelevant outside the
`"pre"` branch). -/
def trivNormEnv : NormEnv := ⟨fun _ => Option.none⟩

/-- Counterexample for C8 as stated: an `"in"`-state entry with an empty
display clock but period 3 renders `"Q3"`, not the generic "In Progress". -/
theorem scoreboard_status_cex :
    let ev : PyVal := PyVal.dict [("id", PyVal.str "e1"),
      ("competitions", PyVal.list [PyVal.dict [
        ("competitors", PyVal.list [
          PyVal.dict [("homeAway", PyVal.str "home"),
            ("team", PyVal.dict [("abbreviation", PyVal.str "AAA")]), ("score", PyVal.str "7")],
          PyVal.dict [("homeAway", PyVal.str "away"),
            ("team", PyVal.dict [("abbreviation", PyVal.str "BBB")]), ("score", PyVal.str "3")]]),
        ("status", PyVal.dict [("type", PyVal.dict [("state", PyVal.str "in")]),
          ("displayClock", PyVal.str ""), ("period", PyVal.num 3)])]])]
    evState ev = PyVal.str "in" ∧ truthy (evClock ev) = false ∧
      (normalizeEvent trivNormEnv ev).map (fun g => g.status) = some "Q3" ∧
      ("Q3" : String) ≠ "In Progress" := by
  intro ev
  refine ⟨rfl, rfl, ?_, by decide⟩
  rfl

/-- Witness for C8's amended theorem at a concrete payload: empty clock and
absent period render "In Progress"; a post-state payload renders "Final". -/
theorem scoreboard_status_derivation_check :
    let evIn : PyVal := PyVal.dict [("id", PyVal.str "e3"),
      ("competitions", PyVal.list [PyVal.dict [
        ("competitors", PyVal.list [
          PyVal.dict [("homeAway", PyVal.str "home"),
            ("team", PyVal.dict [("abbreviation", PyVal.str "AAA")]), ("score", PyVal.str "7")],
          PyVal.dict [("homeAway", PyVal.str "away"),
            ("team", PyVal.dict [("abbreviation", PyVal.str "BBB")]), ("score", PyVal.str "3")]]),
        ("status", PyVal.dict [("type", PyVal.dict [("state", PyVal.str "in")]),
          ("displayClock", PyVal.str "")])]])]
    ∃ g : GOut, normalizeEvent trivNormEnv evIn = some g ∧ g.status = "In Progress" := by
  intro evIn
  have hsome : (normalizeEvent trivNormEnv evIn).isSome = true := by decide
  refine ⟨(normalizeEvent trivNormEnv evIn).get hsome, (Option.some_get hsome).symm, ?_⟩
  exact (scoreboard_status_derivation trivNormEnv evIn _ (by decide)
    (Option.some_get hsome).symm).1 rfl rfl rfl

/-!  Claim C10: score coercion of the scoreboard normalizer. -/

theorem scoreOf_falsy_zero (c : PyDict)
    (h : dget c "score" = PyVal.none ∨ dget c "score" = PyVal.str "") :
    scoreOf c = some 0 := by
  unfold scoreOf
  rcases h with h | h <;> rw [h] <;> decide

theorem scoreOf_none_char (c : PyDict) (h : scoreOf c = Option.none) :
    truthy (dget c "score") = true ∧ pyInt (dget c "score") = Option.none := by
  unfold scoreOf at h
  by_cases ht : truthy (dget c "score") = true
  · rw [pyOr, if_pos ht] at h
    exact ⟨ht, h⟩
  · simp only [Bool.not_eq_true] at ht
    rw [pyOr, ht] at h
    simp only [Bool.false_eq_true, if_false] at h
    exact absurd h (by decide)

/-- C10: in the scoreboard normalizer, for entries in the `"in"` or `"post"`
state, a competitor whose `score` field is absent or `None` (both read back as
`None`) or the empty string is assigned the numeric score 0, not null; a null
score arises only when a present, truthy (non-empty) value fails to parse as
an integer. -/
theorem scoreboard_score_coercion (env : NormEnv) (ev : PyVal) (g : GOut)
    (hwf : wfEvent ev = true) (hn : normalizeEvent env ev = some g)
    (hst : evState ev = PyVal.str "in" ∨ evState ev = PyVal.str "post") :
    ((dget (evHomeC ev) "score" = PyVal.none ∨ dget (evHomeC ev) "score" = PyVal.str "") →
      g.homeScore = some 0) ∧
    (g.homeScore = Option.none →
      truthy (dget (evHomeC ev) "score") = true ∧
      pyInt (dget (evHomeC ev) "score") = Option.none) ∧
    ((dget (evAwayC ev) "score" = PyVal.none ∨ dget (evAwayC ev) "score" = PyVal.str "") →
      g.awayScore = some 0) ∧
    (g.awayScore = Option.none →
      truthy (dget (evAwayC ev) "score") = true ∧
      pyInt (dget (evAwayC ev) "score") = Option.none) := by
  simp only [normalizeEvent] at hn
  split at hn
  · exact absurd hn (by simp)
  · rw [Option.some.injEq] at hn
    subst hn
    rcases hst with h | h <;> rw [h] <;>
      exact ⟨fun hz => scoreOf_falsy_zero (evHomeC ev) hz,
             fun hz => scoreOf_none_char (evHomeC ev) hz,
             fun hz => scoreOf_falsy_zero (evAwayC ev) hz,
             fun hz => scoreOf_none_char (evAwayC ev) hz⟩

/-- Witness for C10: a post-state entry whose home competitor has no `score`
key is scored 0, not null. -/
theorem scoreboard_score_coercion_check :
    let ev : PyVal := PyVal.dict [("id", PyVal.str "e2"),
      ("competitions", PyVal.list [PyVal.dict [
        ("competitors", PyVal.list [
          PyVal.dict [("homeAway", PyVal.str "home"),
            ("team", PyVal.dict [("abbreviation", PyVal.str "AAA")])],
          PyVal.dict [("homeAway", PyVal.str "away"),
            ("team", PyVal.dict [("abbreviation", PyVal.str "BBB")]), ("score", PyVal.str "21")]]),
        ("status", PyVal.dict [("type", PyVal.dict [("state", PyVal.str "post")])])]])]
    ∃ g : GOut, normalizeEvent trivNormEnv ev = some g ∧ g.homeScore = some 0 ∧
      g.awayScore = some 21 := by
  intro ev
  have hsome : (normalizeEvent trivNormEnv ev).isSome = true := by decide
  refine ⟨(normalizeEvent trivNormEnv ev).get hsome, (Option.some_get hsome).symm, ?_, ?_⟩
  · exact (scoreboard_score_coercion trivNormEnv ev _ (by decide)
      (Option.some_get hsome).symm (Or.inr rfl)).1 (Or.inl rfl)
  · rfl

/-!  Claim C2 (corrected): the fixed-anchor week calculator and its inverse. -/

/-- Offset (in days) of a week's window start from the Aug 7 preseason
anchor: weeks 1-3 start at 0/7/14, the gap occupies 21-27, and weeks 4 and
later start at `7*w` (week 4 = 28 = the Sep 4 anchor). -/
def weekOff (w : Nat) : Nat :=
  if w ≤ 3 then 7 * (w - 1) else 7 * w

theorem absDay_month8 (y : Nat) : ∀ d : Nat,
    absDay y 8 d = daysBeforeYear y + 212 + d + (if isLeap y = true then 1 else 0) := by
  intro d
  simp only [absDay, doy, monthDaysBefore]
  by_cases hl : isLeap y = true <;> simp [hl] <;> omega

theorem absDay_month9 (y : Nat) : ∀ d : Nat,
    absDay y 9 d = daysBeforeYear y + 243 + d + (if isLeap y = true then 1 else 0) := by
  intro d
  simp only [absDay, doy, monthDaysBefore]
  by_cases hl : isLeap y = true <;> simp [hl] <;> omega

theorem fixed_range_eq (y w : Nat) (h1 : 1 ≤ w) :
    fixed_overall_week_range y w =
      (absDay y 8 7 + weekOff w, absDay y 8 7 + weekOff w + 6) := by
  have l8 := absDay_month8 y
  have l9 := absDay_month9 y
  unfold fixed_overall_week_range weekOff
  split_ifs <;> simp only [l8, l9, Prod.mk.injEq] <;> constructor <;> omega

theorem weekOff_window_inj (w w' a B : Nat) (hlo : 1 ≤ w) (hlo' : 1 ≤ w')
    (h21 : w ≤ 21) (h21' : w' ≤ 21)
    (hin1 : B + weekOff w ≤ a) (hin2 : a ≤ B + weekOff w + 6)
    (hin1' : B + weekOff w' ≤ a) (hin2' : a ≤ B + weekOff w' + 6) : w = w' := by
  unfold weekOff at hin1 hin2 hin1' hin2'
  by_cases hw : w ≤ 3
  · rw [if_pos hw] at hin1 hin2
    by_cases hw' : w' ≤ 3
    · rw [if_pos hw'] at hin1' hin2'
      omega
    · rw [if_neg hw'] at hin1' hin2'
      omega
  · rw [if_neg hw] at hin1 hin2
    by_cases hw' : w' ≤ 3
    · rw [if_pos hw'] at hin1' hin2'
      omega
    · rw [if_neg hw'] at hin1' hin2'
      omega

theorem find_eq_some_of_unique {p : Nat → Bool} :
    ∀ (l : List Nat) (w : Nat), w ∈ l → p w = true → (∀ x ∈ l, p x = true → x = w) →
      l.find? p = some w := by
  intro l
  induction l with
  | nil => intro w hw; cases hw
  | cons a t ih =>
    intro w hw hp huniq
    by_cases ha : p a = true
    · have : a = w := huniq a (List.mem_cons_self a t) ha
      subst this
      exact List.find?_cons_of_pos t ha
    · simp only [Bool.not_eq_true] at ha
      rw [List.find?_cons_of_neg t (by simp [ha])]
      rcases List.mem_cons.mp hw with rfl | hwt
      · rw [ha] at hp; cases hp
      · exact ih w hwt hp (fun x hx hpx => huniq x (List.mem_cons_of_mem _ hx) hpx)

theorem mem_weekList (w : Nat) (h1 : 1 ≤ w) (h2 : w ≤ 21) :
    w ∈ (List.range 21).map (fun i => i + 1) := by
  rw [List.mem_map]
  exact ⟨w - 1, List.mem_range.mpr (by omega), by omega⟩

theorem weekList_bounds (x : Nat) (hx : x ∈ (List.range 21).map (fun i => i + 1)) :
    1 ≤ x ∧ x ≤ 21 := by
  rw [List.mem_map] at hx
  obtain ⟨i, hi, rfl⟩ := hx
  have := List.mem_range.mp hi
  omega

/-- C2 (amended): under the spec-modelled fixed-anchor rule,
`_infer_overall_week_from_kickoff` inverts `_fixed_overall_week_range` for
every date that falls within the season year's own calendar — every such date
inside the window of a valid overall week `w` (1-21) maps back to `w` — and
dates in the intentional Aug 28 - Sep 3 gap lie in no week's window, the
function then returning its documented default 4.  (The inversion cannot
extend to window days past Dec 31: the last windows spill into January, where
the function scans the next calendar year's windows and returns the default —
see the counterexample.) -/
theorem week_range_inversion :
    (∀ (y w : Nat) (d : CDate), 1 ≤ w → w ≤ 21 → validDate d = true → d.year = y →
      (fixed_overall_week_range y w).1 ≤ toAbs d → toAbs d ≤ (fixed_overall_week_range y w).2 →
      infer_overall_week_from_kickoff d = w) ∧
    (∀ (y : Nat) (d : CDate), validDate d = true → d.year = y →
      absDay y 8 28 ≤ toAbs d → toAbs d ≤ absDay y 9 3 →
      (∀ w, 1 ≤ w → w ≤ 21 →
        ¬((fixed_overall_week_range y w).1 ≤ toAbs d ∧
          toAbs d ≤ (fixed_overall_week_range y w).2)) ∧
      infer_overall_week_from_kickoff d = 4) := by
  constructor
  · intro y w d hw1 hw2 hv hy hlo hhi
    subst hy
    rw [fixed_range_eq d.year w hw1] at hlo hhi
    unfold infer_overall_week_from_kickoff
    rw [find_eq_some_of_unique ((List.range 21).map (fun i => i + 1)) w
      (mem_weekList w hw1 hw2)
      (by simp only [Bool.and_eq_true, decide_eq_true_eq]
          rw [fixed_range_eq d.year w hw1]
          exact ⟨hlo, hhi⟩)
      (by intro x hx hpx
          obtain ⟨hx1, hx2⟩ := weekList_bounds x hx
          simp only [Bool.and_eq_true, decide_eq_true_eq] at hpx
          rw [fixed_range_eq d.year x hx1] at hpx
          exact weekOff_window_inj x w (toAbs d) (absDay d.year 8 7) hx1 hw1 hx2 hw2
            hpx.1 hpx.2 hlo hhi)]
  · intro y d hv hy h28 h3
    subst hy
    have l8 := absDay_month8 d.year
    have l9 := absDay_month9 d.year
    have hno : ∀ w, 1 ≤ w → w ≤ 21 →
        ¬((fixed_overall_week_range d.year w).1 ≤ toAbs d ∧
          toAbs d ≤ (fixed_overall_week_range d.year w).2) := by
      intro w hw1 hw2 hcon
      rw [fixed_range_eq d.year w hw1] at hcon
      obtain ⟨hc1, hc2⟩ := hcon
      rw [l8 28] at h28
      rw [l9 3] at h3
      rw [l8 7] at hc1 hc2
      unfold weekOff at hc1 hc2
      by_cases hw3 : w ≤ 3
      · rw [if_pos hw3] at hc1 hc2
        omega
      · rw [if_neg hw3] at hc1 hc2
        omega
    refine ⟨hno, ?_⟩
    unfold infer_overall_week_from_kickoff
    rw [List.find?_eq_none.mpr ?hnone]
    case hnone =>
      intro x hx
      obtain ⟨hx1, hx2⟩ := weekList_bounds x hx
      simp only [Bool.and_eq_true, decide_eq_true_eq, not_and]
      intro hc1 hc2
      exact absurd ⟨hc1, hc2⟩ (hno x hx1 hx2)

/-- Counterexample for C2 as stated: Jan 1, 2026 lies inside
`_fixed_overall_week_range (2025, 21)` (the last regular-season window spills
past Dec 31), yet `_infer_overall_week_from_kickoff` evaluates it against
calendar year 2026's windows and returns the default 4, not 21. -/
theorem week_range_inversion_cex :
    validDate ⟨2026, 1, 1⟩ = true ∧
    (fixed_overall_week_range 2025 21).1 ≤ toAbs ⟨2026, 1, 1⟩ ∧
    toAbs ⟨2026, 1, 1⟩ ≤ (fixed_overall_week_range 2025 21).2 ∧
    infer_overall_week_from_kickoff ⟨2026, 1, 1⟩ = 4 ∧ (4 : Nat) ≠ 21 := by
  refine ⟨by decide, by decide, by decide, by decide, by decide⟩

/-- Witness for C2's amended theorem: Sep 11, 2025 lies in week 5's window and
maps back to 5; Aug 30, 2025 lies in the gap, is inside no week's window, and
gets the default 4. -/
theorem week_range_inversion_check :
    infer_overall_week_from_kickoff ⟨2025, 9, 11⟩ = 5 ∧
    (¬((fixed_overall_week_range 2025 21).1 ≤ toAbs ⟨2025, 8, 30⟩ ∧
       toAbs ⟨2025, 8, 30⟩ ≤ (fixed_overall_week_range 2025 21).2) ∧
     infer_overall_week_from_kickoff ⟨2025, 8, 30⟩ = 4) :=
  ⟨week_range_inversion.1 2025 5 ⟨2025, 9, 11⟩ (by decide) (by decide) (by decide) rfl
     (by decide) (by decide),
   ⟨(week_range_inversion.2 2025 ⟨2025, 8, 30⟩ (by decide) rfl (by decide) (by decide)).1
      21 (by decide) (by decide),
    (week_range_inversion.2 2025 ⟨2025, 8, 30⟩ (by decide) rfl (by decide) (by decide)).2⟩⟩
